import Mathlib

/-!
A shallow embedding, in Lean 4, of the kernel-dispatch and
vector-Jacobian-product core of the pennylane-lightning quantum-circuit
simulator, together with theorems checking its natural-language
specification.  C++ `std::vector` buffers become Lean lists, machine
reals become exact rationals, complex amplitudes become pairs of
rationals, exceptions become `Except String`, and the `unordered_map`
kernel registries become association lists with `emplace`
(insert-only-if-absent) semantics.
-/

namespace PennylaneLightning

/-- A complex amplitude: `std::complex<PrecisionT>` with the precision
type modelled as an exact rational. -/
structure Cplx where
  re : ℚ
  im : ℚ
deriving DecidableEq, Repr

/-- The zero amplitude `(0,0)`. -/
def czero : Cplx := ⟨0, 0⟩

/-- The unit amplitude `(1,0)`. -/
def cone : Cplx := ⟨1, 0⟩

/-! ### Association-list model of `std::unordered_map` -/

/-- Lookup in an association list, modelling `unordered_map::find`. -/
def mapLookup {K V : Type} [DecidableEq K] : List (K × V) → K → Option V
  | [], _ => none
  | (k', v) :: rest, k => if k' = k then some v else mapLookup rest k

/-- `unordered_map::emplace`: insert the binding only when the key is
absent; an existing binding for the key is left untouched and the new
value is discarded. -/
def mapEmplace {K V : Type} [DecidableEq K] : List (K × V) → K → V → List (K × V)
  | [], k, v => [(k, v)]
  | (k', v') :: rest, k, v =>
    if k' = k then (k', v') :: rest else (k', v') :: mapEmplace rest k v

theorem mapEmplace_of_mem {K V : Type} [DecidableEq K]
    (m : List (K × V)) (k : K) (f g : V)
    (h : mapLookup m k = some f) : mapEmplace m k g = m := by
  induction m with
  | nil => simp [mapLookup] at h
  | cons p rest ih =>
    obtain ⟨k', v'⟩ := p
    by_cases hk : k' = k
    · simp [mapEmplace, hk]
    · simp only [mapLookup, hk, if_false] at h
      simp [mapEmplace, hk, ih h]

/-! ### `std::vector` resize and prefix-overwrite -/

/-- `std::vector<T>::resize(n)`: keep the first `n` elements; when
growing, value-initialise (zero) the new tail. -/
def resizeVec (v : List ℚ) (n : ℕ) : List ℚ :=
  if n ≤ v.length then v.take n else v ++ List.replicate (n - v.length) 0

/-- Writing `upd[k]` into `res[k]` for every `k < upd.length`
(the flattening loop of `getRowMajor`). -/
def writeFront (res upd : List ℚ) : List ℚ :=
  upd ++ res.drop upd.length

theorem resizeVec_length (v : List ℚ) (n : ℕ) : (resizeVec v n).length = n := by
  unfold resizeVec
  by_cases h : n ≤ v.length
  · simp [h, Nat.min_eq_left h]
  · simp [h]
    omega

/-! ### `VectorJacobianProduct` (algorithms/JacobianProd.hpp) -/

/-- The sequence of values written by `getRowMajor`'s double loop:
`jac[i][j]` for `i` over the rows and `j` below the first row's length
(`c_len`); a read past a row's end, undefined behaviour in C++, is
rendered as the default `0`. -/
def rowMajorOf (jac : List (List ℚ)) : List ℚ :=
  let c_len := (jac.headD []).length
  jac.flatMap (fun row => (List.range c_len).map (fun j => row.getD j 0))

/-- `VectorJacobianProduct::getRowMajor(res, jac, len)`: on an empty
Jacobian return `res` unchanged; otherwise resize `res` to
`t_len = (len ≠ 0 ? len : r_len * c_len)` and overwrite positions
`0 .. r_len*c_len - 1` with the row-major entries. -/
def getRowMajor (res : List ℚ) (jac : List (List ℚ)) (len : ℕ) : List ℚ :=
  if jac.isEmpty then res
  else
    let r_len := jac.length
    let c_len := (jac.headD []).length
    let t_len := if len ≠ 0 then len else r_len * c_len
    writeFront (resizeVec res t_len) (rowMajorOf jac)

/-- Modelled from the spec: `Util::vecMatrixProd` lives in
`Util.hpp`, which is not among the provided sources.  Per the spec's
VJP composition, the output has one entry per matrix column `j < n`,
equal to the sum over rows `i < m` of `v_in[i] * mat[i*n + j]`; the
preallocated output vector is resized to `n` and every entry is
overwritten, so its prior contents never survive. -/
def vecMatrixProd (_v_out v_in mat : List ℚ) (m n : ℕ) : List ℚ :=
  (List.range n).map
    (fun j => ((List.range m).map (fun i => v_in.getD i 0 * mat.getD (i * n + j) 0)).sum)

/-- `VectorJacobianProduct::computeVJP(vjp, jac, dy_row)`: empty
Jacobian or empty gradient clears `vjp`; a gradient length different
from the row count throws `std::invalid_argument`; otherwise the
flattened Jacobian is contracted with `dy_row`. -/
def computeVJP (vjp : List ℚ) (jac : List (List ℚ)) (dy_row : List ℚ) :
    Except String (List ℚ) :=
  if jac.isEmpty || dy_row.isEmpty then .ok []
  else
    let r_len := jac.length
    let c_len := (jac.headD []).length
    if dy_row.length ≠ r_len then
      .error "Invalid size for the gradient-output vector"
    else
      let t_len := r_len * c_len
      let jac_row := getRowMajor (List.replicate t_len 0) jac t_len
      .ok (vecMatrixProd vjp dy_row jac_row r_len c_len)

/-- The gradient tape, modelled from the spec: `Tape.hpp` is not among
the provided sources.  `GradTapeT` carries (besides the recorded
operations, irrelevant here) the sorted unique trainable-parameter
indices and the observables; only their counts matter to the VJP
driver. -/
structure GradTape where
  trainableParams : List ℕ
  numObservables : ℕ

/-- `VectorJacobianProduct::vectorJacobianProduct(vjp, jac, dy, tape,
apply_operations)`.  `AdjointJacobian::adjointJacobianTape` lives in
`AdjointDiff.hpp`, which is not among the provided sources, so it is
taken as an explicit function argument `adjJac`; the returned `Bool`
records whether it was invoked.  On the all-zero-gradient shortcut the
code executes `vjp.resize(num_params)` — prior entries of the
preallocated `vjp` are kept, only newly created entries are
zero-initialised. -/
def vectorJacobianProduct
    (adjJac : List (List ℚ) → GradTape → Bool → List (List ℚ))
    (vjp : List ℚ) (jac : List (List ℚ)) (dy : List ℚ) (tape : GradTape)
    (apply_operations : Bool) :
    Except String (List ℚ × List (List ℚ) × Bool) :=
  let num_params := tape.trainableParams.length
  if num_params = 0 ∨ dy.isEmpty then .ok ([], jac, false)
  else if dy.all (fun e => decide (e = 0)) then
    .ok (resizeVec vjp num_params, jac, false)
  else
    let jacNew := adjJac jac tape apply_operations
    match computeVJP vjp jacNew dy with
    | .ok v => .ok (v, jacNew, true)
    | .error e => .error e

/-- `VectorJacobianProduct::vectorJacobianProductFunc(dy, tape,
apply_operations)` returns a zero-argument callable; the model gives
the value that callable produces when invoked, paired with whether the
Jacobian computation runs.  (The C++ all-zero branch captures the local
`num_params` by reference in the returned closure — a dangling
reference once the function returns; the model renders the intended
by-value semantics.) -/
def vectorJacobianProductFunc
    (adjJac : List (List ℚ) → GradTape → Bool → List (List ℚ))
    (dy : List ℚ) (tape : GradTape) (apply_operations : Bool) :
    Except String (List ℚ) × Bool :=
  let num_params := tape.trainableParams.length
  if num_params = 0 ∨ dy.isEmpty then (.ok [], false)
  else if dy.all (fun e => decide (e = 0)) then
    (.ok (List.replicate num_params 0), false)
  else
    let vjp := List.replicate num_params 0
    let jac := List.replicate tape.numObservables (List.replicate num_params 0)
    let jacNew := adjJac jac tape apply_operations
    (computeVJP vjp jacNew dy, true)

/-! ### Helper lemmas -/

theorem getD_replicate_zero (m j : ℕ) : (List.replicate m (0 : ℚ)).getD j 0 = 0 := by
  rcases Nat.lt_or_ge j m with h | h
  · rw [List.getD_eq_getElem _ _ (by simpa using h)]
    simp
  · exact List.getD_eq_default _ _ (by simpa using h)

theorem resizeVec_getD_of_le (v : List ℚ) (n i : ℕ) (h : v.length ≤ i) :
    (resizeVec v n).getD i 0 = 0 := by
  unfold resizeVec
  by_cases hn : n ≤ v.length
  · rw [if_pos hn]
    exact List.getD_eq_default _ _ (by simp; omega)
  · rw [if_neg hn, List.getD_append_right _ _ _ _ h]
    exact getD_replicate_zero _ _

theorem map_range_getD (row : List ℚ) (c : ℕ) (h : row.length = c) :
    (List.range c).map (fun j => row.getD j 0) = row := by
  subst h
  apply List.ext_getElem (by simp)
  intro i h1 h2
  simp only [List.getElem_map, List.getElem_range]
  exact List.getD_eq_getElem _ _ h2

theorem flatten_length_of_rows (jac : List (List ℚ)) (c : ℕ)
    (hrows : ∀ row ∈ jac, row.length = c) :
    jac.flatten.length = jac.length * c := by
  induction jac with
  | nil => simp
  | cons row rest ih =>
    have hr : row.length = c := hrows row (by simp)
    have : ∀ r ∈ rest, r.length = c := fun r hr' => hrows r (by simp [hr'])
    simp [hr, ih this, Nat.succ_mul, Nat.add_comm]

theorem flatten_getD (jac : List (List ℚ)) (c : ℕ)
    (hrows : ∀ row ∈ jac, row.length = c) :
    ∀ i j, i < jac.length → j < c →
      jac.flatten.getD (i * c + j) 0 = (jac.getD i []).getD j 0 := by
  induction jac with
  | nil => intro i j hi _; simp at hi
  | cons row rest ih =>
    intro i j hi hj
    have hr : row.length = c := hrows row (by simp)
    have hrest : ∀ r ∈ rest, r.length = c := fun r hr' => hrows r (by simp [hr'])
    cases i with
    | zero =>
      simp only [List.flatten_cons, Nat.zero_mul, Nat.zero_add, List.getD_cons_zero]
      exact List.getD_append _ _ _ _ (by omega)
    | succ i' =>
      have hlen : row.length ≤ (i' + 1) * c + j := by
        rw [hr]; calc c ≤ (i' + 1) * c := Nat.le_mul_of_pos_left _ (Nat.succ_pos _)
          _ ≤ (i' + 1) * c + j := Nat.le_add_right _ _
      simp only [List.flatten_cons, List.getD_cons_succ]
      rw [List.getD_append_right _ _ _ _ hlen]
      have harith : (i' + 1) * c + j - row.length = i' * c + j := by
        rw [hr]; ring_nf; omega
      rw [harith]
      exact ih hrest i' j (by simpa using hi) hj

theorem rowMajorOf_eq_flatten (jac : List (List ℚ)) (c : ℕ)
    (hc : (jac.headD []).length = c) (hrows : ∀ row ∈ jac, row.length = c) :
    rowMajorOf jac = jac.flatten := by
  unfold rowMajorOf
  rw [hc]
  induction jac with
  | nil => simp
  | cons row rest ih =>
    have hr : row.length = c := hrows row (by simp)
    have hrest : ∀ r ∈ rest, r.length = c := fun r hr' => hrows r (by simp [hr'])
    simp only [List.flatMap_cons, List.flatten_cons, map_range_getD row c hr]
    congr 1
    rcases rest with _ | ⟨row', rest'⟩
    · simp
    · exact ih (hrows row' (by simp)) hrest

theorem getRowMajor_eq_flatten (jac : List (List ℚ)) (c : ℕ)
    (hne : jac ≠ []) (hc : (jac.headD []).length = c)
    (hrows : ∀ row ∈ jac, row.length = c) :
    getRowMajor (List.replicate (jac.length * c) 0) jac (jac.length * c)
      = jac.flatten := by
  unfold getRowMajor
  rw [if_neg (by simp [hne])]
  simp only [hc]
  have ht : (if jac.length * c ≠ 0 then jac.length * c else jac.length * c)
      = jac.length * c := by split <;> rfl
  rw [ht]
  have hres : resizeVec (List.replicate (jac.length * c) 0) (jac.length * c)
      = List.replicate (jac.length * c) 0 := by
    unfold resizeVec
    rw [if_pos (by simp)]
    simp
  rw [hres, rowMajorOf_eq_flatten jac c hc hrows]
  unfold writeFront
  rw [flatten_length_of_rows jac c hrows]
  simp

/-! ### Claims C1, C3, C4 -/

/-- Claim C1 counterexample: a tape with one trainable parameter, the
all-zero upstream gradient `[0]`, and a preallocated output vector
holding the prior value `[5]`.  `vectorJacobianProduct` executes
`vjp.resize(1)`, which keeps the existing entry, so the produced vector
is `[5]` — not the zero vector of length 1 the claim promises,
even though the Jacobian computation is indeed skipped. -/
theorem vjp_allzero_counterexample :
    vectorJacobianProduct (fun j _ _ => j) [5] [] [0] ⟨[0], 1⟩ false
        = .ok ([5], [], false)
      ∧ ([5] : List ℚ) ≠ List.replicate 1 0 := by
  constructor
  · norm_num [vectorJacobianProduct, resizeVec]
  · norm_num

/-- Claim C1 (amended): for a tape with at least one trainable
parameter and a non-empty, all-zero upstream gradient,
`vectorJacobianProduct` never invokes the Jacobian computation and
resizes the preallocated output to the trainable-parameter count —
entries at positions the prior vector did not cover are zero, but
prior entries survive; the callable returned by
`vectorJacobianProductFunc` does produce the true zero vector of that
length when invoked. -/
theorem vjp_allzero_shortcut
    (adjJac : List (List ℚ) → GradTape → Bool → List (List ℚ))
    (vjp : List ℚ) (jac : List (List ℚ)) (dy : List ℚ) (tape : GradTape)
    (appops : Bool)
    (hparams : 1 ≤ tape.trainableParams.length) (hdy : dy ≠ [])
    (hzero : ∀ e ∈ dy, e = 0) :
    vectorJacobianProduct adjJac vjp jac dy tape appops
        = .ok (resizeVec vjp tape.trainableParams.length, jac, false)
      ∧ (resizeVec vjp tape.trainableParams.length).length
          = tape.trainableParams.length
      ∧ (∀ i, vjp.length ≤ i →
          (resizeVec vjp tape.trainableParams.length).getD i 0 = 0)
      ∧ vectorJacobianProductFunc adjJac dy tape appops
          = (.ok (List.replicate tape.trainableParams.length 0), false) := by
  have hall : dy.all (fun e => decide (e = 0)) = true := by
    rw [List.all_eq_true]
    intro e he
    simpa using hzero e he
  have hcond : ¬(tape.trainableParams.length = 0 ∨ dy.isEmpty = true) := by
    rintro (h | h)
    · omega
    · exact hdy (List.isEmpty_iff.mp h)
  refine ⟨?_, resizeVec_length _ _, fun i hi => resizeVec_getD_of_le _ _ _ hi, ?_⟩
  · unfold vectorJacobianProduct
    rw [if_neg hcond, if_pos hall]
  · unfold vectorJacobianProductFunc
    rw [if_neg hcond, if_pos hall]

/-- Witness for `vjp_allzero_shortcut` at a concrete tape with two
trainable parameters, gradient `[0]`, and prior output `[5]`. -/
theorem vjp_allzero_shortcut_witness :
    vectorJacobianProduct (fun j _ _ => j) [5] [] [0] ⟨[3, 7], 1⟩ false
      = .ok (resizeVec [5] 2, [], false) :=
  (vjp_allzero_shortcut (fun j _ _ => j) [5] [] [0] ⟨[3, 7], 1⟩ false
    (by norm_num) (by norm_num) (by norm_num)).1

/-- Claim C3: for a Jacobian with `r ≥ 1` rows, every row of length
`c`, and a non-empty upstream gradient `dy` of length `r`,
`computeVJP` produces the contraction `dy^T · J`: one entry per
parameter column `j < c`, equal to the sum over observables `i < r` of
`dy[i] * J[i][j]`. -/
theorem computeVJP_contraction (vjp : List ℚ) (jac : List (List ℚ))
    (dy : List ℚ) (c : ℕ)
    (hjac : jac ≠ []) (hdy : dy ≠ [])
    (hrows : ∀ row ∈ jac, row.length = c)
    (hlen : dy.length = jac.length) :
    computeVJP vjp jac dy
      = .ok ((List.range c).map fun j =>
          ((List.range jac.length).map fun i =>
            dy.getD i 0 * (jac.getD i []).getD j 0).sum) := by
  have hc : (jac.headD []).length = c := by
    cases jac with
    | nil => exact absurd rfl hjac
    | cons row rest => exact hrows row (by simp)
  unfold computeVJP
  rw [if_neg (by simp [hjac, hdy])]
  simp only [hc]
  rw [if_neg (by omega)]
  rw [getRowMajor_eq_flatten jac c hjac hc hrows]
  unfold vecMatrixProd
  congr 1
  apply List.map_congr_left
  intro j hj
  congr 1
  apply List.map_congr_left
  intro i hi
  rw [flatten_getD jac c hrows i j (List.mem_range.mp hi) (List.mem_range.mp hj)]

/-- Witness for `computeVJP_contraction` at the 2-observable,
2-parameter Jacobian `[[1,2],[3,4]]` with gradient `[10,100]`. -/
theorem computeVJP_contraction_witness :
    computeVJP [] [[1, 2], [3, 4]] [10, 100]
      = .ok ((List.range 2).map fun j =>
          ((List.range 2).map fun i =>
            ([10, 100] : List ℚ).getD i 0
              * (([[1, 2], [3, 4]] : List (List ℚ)).getD i []).getD j 0).sum) :=
  computeVJP_contraction [] [[1, 2], [3, 4]] [10, 100] 2
    (by simp) (by simp) (by norm_num) (by norm_num)

/-- Claim C4 counterexample: with the non-empty Jacobian `[[1]]` (one
observable) and the empty gradient vector, `computeVJP` takes the
`jac.empty() || dy_row.empty()` early-return branch and reports no
error at all — it clears the output and returns normally, although the
gradient length 0 differs from the observable count 1. -/
theorem computeVJP_emptydy_counterexample :
    computeVJP [] [[1]] [] = .ok [] := rfl

/-- Claim C4 (amended): for a non-empty Jacobian and a NON-EMPTY
gradient vector, `computeVJP` reports the invalid-size error exactly
when the gradient length differs from the observable count; an empty
gradient vector instead returns the empty vector with no error. -/
theorem computeVJP_error_iff (vjp : List ℚ) (jac : List (List ℚ))
    (dy : List ℚ) (hjac : jac ≠ []) :
    (dy ≠ [] →
      (computeVJP vjp jac dy = .error "Invalid size for the gradient-output vector"
        ↔ dy.length ≠ jac.length))
    ∧ (dy = [] → computeVJP vjp jac dy = .ok []) := by
  constructor
  · intro hdy
    unfold computeVJP
    rw [if_neg (by simp [hjac, hdy])]
    by_cases h : dy.length = jac.length
    · rw [if_neg (by omega)]
      simp [h]
    · rw [if_pos (by omega)]
      simp [h]
  · intro hdy
    subst hdy
    unfold computeVJP
    rw [if_pos (by simp)]

/-- Witness for `computeVJP_error_iff`: a 1×1 Jacobian with a
length-2 gradient triggers the invalid-size error. -/
theorem computeVJP_error_iff_witness :
    computeVJP [] [[1]] [1, 2]
      = .error "Invalid size for the gradient-output vector" :=
  ((computeVJP_error_iff [] [[1]] [1, 2] (by simp)).1 (by simp)).mpr (by norm_num)

/-! ### `DynamicDispatcher` (gates/DynamicDispatcher.hpp) -/

/-- Kernel id for each implementation (simulator/KernelType.hpp):
`enum class KernelType { PI, LM, None }`. -/
inductive KernelType where
  | PI
  | LM
  | None
deriving DecidableEq, Repr

/-- Gate identifiers.  Modelled from the spec: `Constant.hpp`
(`GateOperation`, `gate_names`) is not among the provided sources; the
spec's operation descriptor is an enumerated kind with a stable name,
so a representative enumeration is used — none of the dispatcher
claims depend on the particular gate set. -/
inductive GateOperation where
  | PauliX
  | PauliY
  | PauliZ
  | Hadamard
  | CNOT
  | RX
deriving DecidableEq, Repr

/-- Generator identifiers.  Modelled from the spec: `Constant.hpp`
(`GeneratorOperation`) is not among the provided sources. -/
inductive GeneratorOperation where
  | RX
  | PhaseShift
deriving DecidableEq, Repr

/-- Matrix-arity classes (`Gates::MatrixOperation`): single-wire,
two-wire, generic multi-wire dense-matrix application. -/
inductive MatrixOperation where
  | SingleQubitOp
  | TwoQubitOp
  | MultiQubitOp
deriving DecidableEq, Repr

/-- `Constant::gate_names`, modelled from the spec: the stable
name attached to each gate identifier. -/
def gate_names : List (GateOperation × String) :=
  [(.PauliX, "PauliX"), (.PauliY, "PauliY"), (.PauliZ, "PauliZ"),
   (.Hadamard, "Hadamard"), (.CNOT, "CNOT"), (.RX, "RX")]

/-- `Util::lookup(gate_names, gate_op)` used to build the
lookup-failure message of the by-identifier `applyOperation`. -/
def lookupGateName (op : GateOperation) : String :=
  ((gate_names.find? (fun p => p.1 = op)).map Prod.snd).getD ""

/-- Modelled from the spec: `Util::exp2` lives in `Util.hpp`, which is
not among the provided sources; `exp2 n = 2^n`. -/
def exp2 (n : ℕ) : ℕ := 2 ^ n

/-- A gate kernel: mutates the amplitude buffer given the qubit count,
wires, inverse flag and parameters; modelled as returning the new
buffer. -/
def GateFunc : Type := List Cplx → ℕ → List ℕ → Bool → List ℚ → List Cplx

/-- A generator kernel: mutates the buffer and returns the generator's
real scale factor. -/
def GeneratorFunc : Type := List Cplx → ℕ → List ℕ → Bool → (List Cplx × ℚ)

/-- A dense-matrix kernel: mutates the buffer given the flattened
matrix, wires and inverse flag. -/
def MatrixFunc : Type := List Cplx → ℕ → List Cplx → List ℕ → Bool → List Cplx

/-- The dynamic dispatcher: the name table built in the constructor
from `gate_names`, and the three kernel registries
(`unordered_map`s modelled as association lists with `emplace`
semantics). -/
structure DynamicDispatcher where
  str_to_gates_ : List (String × GateOperation)
  gates_ : List ((GateOperation × KernelType) × GateFunc)
  generators_ : List ((GeneratorOperation × KernelType) × GeneratorFunc)
  matrices_ : List ((MatrixOperation × KernelType) × MatrixFunc)

/-- The private constructor: populate `str_to_gates_` from
`Constant::gate_names`; all registries start empty. -/
def mkDispatcher : DynamicDispatcher :=
  { str_to_gates_ := gate_names.map (fun p => (p.2, p.1))
    gates_ := []
    generators_ := []
    matrices_ := [] }

namespace DynamicDispatcher

/-- `strToGateOp`: `str_to_gates_.at(gate_name)`; the `at` call throws
`std::out_of_range` for an unknown name. -/
def strToGateOp (d : DynamicDispatcher) (gate_name : String) :
    Except String GateOperation :=
  match mapLookup d.str_to_gates_ gate_name with
  | some op => .ok op
  | none => .error "std::out_of_range"

/-- `registerGateOperation`: `gates_.emplace({gate_op, kernel}, func)`. -/
def registerGateOperation (d : DynamicDispatcher) (gate_op : GateOperation)
    (kernel : KernelType) (func : GateFunc) : DynamicDispatcher :=
  { d with gates_ := mapEmplace d.gates_ (gate_op, kernel) func }

/-- `registerGeneratorOperation`: `generators_.emplace({gntr_op, kernel}, func)`. -/
def registerGeneratorOperation (d : DynamicDispatcher)
    (gntr_op : GeneratorOperation) (kernel : KernelType)
    (func : GeneratorFunc) : DynamicDispatcher :=
  { d with generators_ := mapEmplace d.generators_ (gntr_op, kernel) func }

/-- `registerMatrixOperation`: `matrices_.emplace({mat_op, kernel}, func)`. -/
def registerMatrixOperation (d : DynamicDispatcher) (mat_op : MatrixOperation)
    (kernel : KernelType) (func : MatrixFunc) : DynamicDispatcher :=
  { d with matrices_ := mapEmplace d.matrices_ (mat_op, kernel) func }

/-- `isRegistered` for gate operations. -/
def isRegisteredGate (d : DynamicDispatcher) (gate_op : GateOperation)
    (kernel : KernelType) : Bool :=
  (mapLookup d.gates_ (gate_op, kernel)).isSome

/-- `applyOperation` (by name): resolve the name, look up
`(gate_op, kernel)` in `gates_`; an absent entry throws
`std::invalid_argument` before any amplitude is touched; otherwise the
registered kernel runs on the buffer. -/
def applyOperationName (d : DynamicDispatcher) (kernel : KernelType)
    (data : List Cplx) (num_qubits : ℕ) (op_name : String)
    (wires : List ℕ) (inverse : Bool) (params : List ℚ) :
    Except String (List Cplx) :=
  match d.strToGateOp op_name with
  | .error e => .error e
  | .ok gate_op =>
    match mapLookup d.gates_ (gate_op, kernel) with
    | none => .error ("The gate " ++ op_name ++ " is not registered for the given kernel")
    | some func => .ok (func data num_qubits wires inverse params)

/-- `applyOperation` (by `GateOperation`): look up
`(gate_op, kernel)` in `gates_`; an absent entry throws
`std::invalid_argument` before any amplitude is touched. -/
def applyOperationOp (d : DynamicDispatcher) (kernel : KernelType)
    (data : List Cplx) (num_qubits : ℕ) (gate_op : GateOperation)
    (wires : List ℕ) (inverse : Bool) (params : List ℚ) :
    Except String (List Cplx) :=
  match mapLookup d.gates_ (gate_op, kernel) with
  | none => .error ("The gate " ++ lookupGateName gate_op
      ++ " is not registered for the given kernel")
  | some func => .ok (func data num_qubits wires inverse params)

/-- The per-gate dispatch step performed inside the `applyOperations`
loops.  Modelled from the spec: the kernel-less `applyOperation`
overload those loops invoke is not among the provided sources (only
the kernel-taking overloads are), so it is taken as an explicit
function argument; the batching claims hold for every such inner
dispatch. -/
def ApplyOneT : Type :=
  List Cplx → ℕ → String → List ℕ → Bool → List ℚ → Except String (List Cplx)

/-- `applyOperations` (with parameters): checks that the operation,
wire and parameter lists have equal length — the inverse-flag list is
NOT part of the check — then applies the gates in order.  `inverse[i]`
is read without a bounds check (undefined behaviour in C++ when the
list is shorter); the model renders that read as the default `false`. -/
def applyOperationsParams (applyOne : ApplyOneT)
    (data : List Cplx) (num_qubits : ℕ) (ops : List String)
    (wires : List (List ℕ)) (inverse : List Bool)
    (params : List (List ℚ)) : Except String (List Cplx) :=
  if ops.length ≠ wires.length ∨ ops.length ≠ params.length then
    .error "Invalid arguments: number of operations, wires, and parameters must all be equal"
  else
    (List.range ops.length).foldlM
      (fun st i => applyOne st num_qubits (ops.getD i "") (wires.getD i [])
        (inverse.getD i false) (params.getD i []))
      data

/-- `applyOperations` (without parameters): checks only that the
operation and wire lists have equal length, then applies the gates
with empty parameter lists. -/
def applyOperationsNoParams (applyOne : ApplyOneT)
    (data : List Cplx) (num_qubits : ℕ) (ops : List String)
    (wires : List (List ℕ)) (inverse : List Bool) :
    Except String (List Cplx) :=
  if ops.length ≠ wires.length then
    .error "Invalid arguments: number of operations, wires, and parameters must all be equal"
  else
    (List.range ops.length).foldlM
      (fun st i => applyOne st num_qubits (ops.getD i "") (wires.getD i [])
        (inverse.getD i false) [])
      data

/-- `Util::lookup(matrix_names, mat_op)` used to build the
lookup-failure message of `applyMatrix`. -/
def lookupMatrixName (op : MatrixOperation) : String :=
  match op with
  | .SingleQubitOp => "SingleQubitOp"
  | .TwoQubitOp => "TwoQubitOp"
  | .MultiQubitOp => "MultiQubitOp"

/-- The arity-class selection lambda inside `applyMatrix`: switch on
the wire count — one wire, two wires, or the generic multi-wire
class. -/
def matOpOf (wires : List ℕ) : MatrixOperation :=
  match wires.length with
  | 1 => .SingleQubitOp
  | 2 => .TwoQubitOp
  | _ => .MultiQubitOp

/-- `applyMatrix` (raw-pointer overload): select the matrix-arity
class from the wire count, look it up for the kernel, and run it; the
supplied flattened matrix undergoes NO size validation (a raw pointer
carries no length).  (On lookup failure the C++ error path dereferences
the `end()` iterator to build its message — undefined behaviour; the
model emits the intended message.) -/
def applyMatrixPtr (d : DynamicDispatcher) (kernel : KernelType)
    (data : List Cplx) (num_qubits : ℕ) (matrix : List Cplx)
    (wires : List ℕ) (inverse : Bool) : Except String (List Cplx) :=
  match mapLookup d.matrices_ (matOpOf wires, kernel) with
  | none => .error (lookupMatrixName (matOpOf wires)
      ++ " is not registered for the given kernel")
  | some func => .ok (func data num_qubits matrix wires inverse)

/-- `applyMatrix` (vector overload): throws `std::invalid_argument`
when the matrix does not hold exactly `exp2(2·k) = 4^k` entries for
`k` wires, before any amplitude is touched; otherwise forwards to the
raw-pointer overload. -/
def applyMatrixVec (d : DynamicDispatcher) (kernel : KernelType)
    (data : List Cplx) (num_qubits : ℕ) (matrix : List Cplx)
    (wires : List ℕ) (inverse : Bool) : Except String (List Cplx) :=
  if matrix.length ≠ exp2 (2 * wires.length) then
    .error "The size of matrix does not match with the given number of wires"
  else
    applyMatrixPtr d kernel data num_qubits matrix wires inverse

end DynamicDispatcher

/-! ### `StateVectorLQubitManaged` (lightning_qubit/StateVectorLQubitManaged.hpp) -/

/-- `setBasisState(index)`: `std::fill` the buffer with zeros, then
`data_[index] = {1, 0}` — with NO range check on `index`
(`operator[]` past the end is undefined behaviour in C++; the model's
`List.set` leaves the zeroed buffer unchanged there). -/
def setBasisState (data : List Cplx) (index : ℕ) : List Cplx :=
  (data.map (fun _ => czero)).set index cone

/-- The `StateVectorLQubitManaged(num_qubits)` constructor: allocate
`exp2(num_qubits)` zero amplitudes, then `setBasisState(0)`. -/
def svCreate (num_qubits : ℕ) : List Cplx :=
  setBasisState (List.replicate (exp2 num_qubits) czero) 0

/-- `resetStateVector()`: `setBasisState(0)` when the length is
non-zero, otherwise a no-op. -/
def resetStateVector (data : List Cplx) : List Cplx :=
  if 0 < data.length then setBasisState data 0 else data

open DynamicDispatcher

/-- A gate kernel that leaves the buffer unchanged, used for concrete
registry examples. -/
def idGateFunc : GateFunc := fun data _ _ _ _ => data

/-- A generator kernel that leaves the buffer unchanged and reports
scale factor `-1/2`, used for concrete registry examples. -/
def idGeneratorFunc : GeneratorFunc := fun data _ _ _ => (data, -(1/2))

/-- A matrix kernel that leaves the buffer unchanged, used for
concrete registry examples. -/
def idMatrixFunc : MatrixFunc := fun data _ _ _ _ => data

/-- A dispatcher with one gate, one generator and one matrix kernel
registered, used for concrete examples. -/
def sampleDispatcher : DynamicDispatcher :=
  registerMatrixOperation
    (registerGeneratorOperation
      (registerGateOperation mkDispatcher .PauliX .LM idGateFunc)
      .RX .LM idGeneratorFunc)
    .SingleQubitOp .LM idMatrixFunc

/-! ### Claims C2, C8, C10 -/

/-- Claim C2: when `(gate_op, kernel)` has no registered kernel, both
`applyOperation` overloads report the lookup failure by throwing
`std::invalid_argument` — no other variant is tried, and since the
throw happens before the kernel call, no amplitude of the buffer is
touched (the error result carries no modified buffer). -/
theorem applyOperation_unregistered (d : DynamicDispatcher)
    (kernel : KernelType) (data : List Cplx) (num_qubits : ℕ)
    (op_name : String) (gate_op : GateOperation) (wires : List ℕ)
    (inverse : Bool) (params : List ℚ)
    (hname : d.strToGateOp op_name = .ok gate_op)
    (hmiss : mapLookup d.gates_ (gate_op, kernel) = none) :
    applyOperationName d kernel data num_qubits op_name wires inverse params
        = .error ("The gate " ++ op_name ++ " is not registered for the given kernel")
      ∧ applyOperationOp d kernel data num_qubits gate_op wires inverse params
        = .error ("The gate " ++ lookupGateName gate_op
            ++ " is not registered for the given kernel") := by
  constructor
  · unfold applyOperationName
    rw [hname]
    simp only [hmiss]
  · unfold applyOperationOp
    rw [hmiss]

/-- Witness for `applyOperation_unregistered`: the freshly constructed
dispatcher has an empty gate registry, so dispatching `PauliX` for the
`LM` kernel fails. -/
theorem applyOperation_unregistered_witness :
    applyOperationName mkDispatcher .LM [cone] 1 "PauliX" [0] false []
      = .error "The gate PauliX is not registered for the given kernel" :=
  (applyOperation_unregistered mkDispatcher .LM [cone] 1 "PauliX" .PauliX [0]
    false [] rfl rfl).1

/-- Claim C8: when the gate's name resolves to its identifier and the
`(gate_op, kernel)` pair is registered, dispatch by name and dispatch
by identifier find the same registry entry, invoke the same kernel,
and produce identical buffers. -/
theorem applyOperation_name_op_agree (d : DynamicDispatcher)
    (kernel : KernelType) (data : List Cplx) (num_qubits : ℕ)
    (op_name : String) (gate_op : GateOperation) (wires : List ℕ)
    (inverse : Bool) (params : List ℚ)
    (hname : d.strToGateOp op_name = .ok gate_op)
    (hreg : isRegisteredGate d gate_op kernel = true) :
    applyOperationName d kernel data num_qubits op_name wires inverse params
      = applyOperationOp d kernel data num_qubits gate_op wires inverse params := by
  unfold applyOperationName applyOperationOp
  rw [hname]
  unfold isRegisteredGate at hreg
  cases h : mapLookup d.gates_ (gate_op, kernel) with
  | none => rw [h] at hreg; simp at hreg
  | some func => simp only [h]

/-- Witness for `applyOperation_name_op_agree`: `PauliX` registered
for the `LM` kernel, dispatched by name and by identifier. -/
theorem applyOperation_name_op_agree_witness :
    applyOperationName sampleDispatcher .LM [cone, czero] 1 "PauliX" [0] false []
      = applyOperationOp sampleDispatcher .LM [cone, czero] 1 .PauliX [0] false [] :=
  applyOperation_name_op_agree sampleDispatcher .LM [cone, czero] 1 "PauliX"
    .PauliX [0] false [] rfl rfl

/-- Claim C10: `unordered_map::emplace` inserts only when the key is
absent, so a second registration under an occupied
`(operation, kernel)` key leaves each registry — and hence the whole
dispatcher, including what lookup returns and what dispatch invokes —
unchanged, silently discarding the new callable without reporting any
error. -/
theorem register_duplicate_discarded (d : DynamicDispatcher)
    (gate_op : GateOperation) (kg : KernelType) (f g : GateFunc)
    (gntr_op : GeneratorOperation) (kn : KernelType) (fn gn : GeneratorFunc)
    (mat_op : MatrixOperation) (km : KernelType) (fm gm : MatrixFunc) :
    (mapLookup d.gates_ (gate_op, kg) = some f →
        registerGateOperation d gate_op kg g = d)
      ∧ (mapLookup d.generators_ (gntr_op, kn) = some fn →
        registerGeneratorOperation d gntr_op kn gn = d)
      ∧ (mapLookup d.matrices_ (mat_op, km) = some fm →
        registerMatrixOperation d mat_op km gm = d) := by
  refine ⟨fun h => ?_, fun h => ?_, fun h => ?_⟩
  · unfold registerGateOperation
    rw [mapEmplace_of_mem _ _ f g h]
  · unfold registerGeneratorOperation
    rw [mapEmplace_of_mem _ _ fn gn h]
  · unfold registerMatrixOperation
    rw [mapEmplace_of_mem _ _ fm gm h]

/-- Witness for `register_duplicate_discarded`: re-registering the
already-occupied `(PauliX, LM)` key leaves `sampleDispatcher`
unchanged. -/
theorem register_duplicate_discarded_witness :
    registerGateOperation sampleDispatcher .PauliX .LM
      (fun _ _ _ _ _ => []) = sampleDispatcher :=
  (register_duplicate_discarded sampleDispatcher .PauliX .LM idGateFunc
    (fun _ _ _ _ _ => []) .RX .LM idGeneratorFunc idGeneratorFunc
    .SingleQubitOp .LM idMatrixFunc idMatrixFunc).1 rfl

/-! ### Claims C5, C6 -/

theorem foldlM_congr {α β : Type} (l : List α)
    (f g : β → α → Except String β) (init : β)
    (h : ∀ a ∈ l, ∀ s, f s a = g s a) :
    l.foldlM f init = l.foldlM g init := by
  induction l generalizing init with
  | nil => rfl
  | cons a rest ih =>
    simp only [List.foldlM_cons, h a (by simp)]
    cases hga : g init a with
    | error e => rfl
    | ok s => exact ih s (fun a' ha' s' => h a' (List.mem_cons_of_mem a ha') s')

/-- Claim C5 counterexample: one operation with matching wire and
parameter lists but an EMPTY inverse-flag list.  The length check in
`applyOperations` compares only the operation, wire and parameter
list lengths, so the call proceeds — it applies the gate (reading
`inverse[0]` out of bounds in C++) instead of failing. -/
theorem applyOperations_inverse_counterexample :
    applyOperationsParams (fun st _ _ _ _ _ => .ok st) [cone] 1
      ["PauliX"] [[0]] [] [[]] = .ok [cone] := rfl

/-- Claim C5 (amended): `applyOperations` throws the invalid-arguments
error, before applying any gate, whenever the operation, wire and
parameter lists differ in length (the kernel-less overload checks
operations against wires only); the inverse-flag list takes no part in
the validation — the result depends only on the flag values the loop
reads, not on the list's length. -/
theorem applyOperations_length_check (applyOne : ApplyOneT)
    (data : List Cplx) (num_qubits : ℕ) (ops : List String)
    (wires : List (List ℕ)) (inverse : List Bool)
    (params : List (List ℚ)) :
    (ops.length ≠ wires.length ∨ ops.length ≠ params.length →
        applyOperationsParams applyOne data num_qubits ops wires inverse params
          = .error "Invalid arguments: number of operations, wires, and parameters must all be equal")
      ∧ (∀ inverse' : List Bool,
          (∀ i < ops.length, inverse.getD i false = inverse'.getD i false) →
          applyOperationsParams applyOne data num_qubits ops wires inverse params
            = applyOperationsParams applyOne data num_qubits ops wires inverse' params)
      ∧ (ops.length ≠ wires.length →
        applyOperationsNoParams applyOne data num_qubits ops wires inverse
          = .error "Invalid arguments: number of operations, wires, and parameters must all be equal") := by
  refine ⟨fun h => ?_, fun inverse' h => ?_, fun h => ?_⟩
  · unfold applyOperationsParams
    rw [if_pos h]
  · unfold applyOperationsParams
    by_cases hlen : ops.length ≠ wires.length ∨ ops.length ≠ params.length
    · rw [if_pos hlen, if_pos hlen]
    · rw [if_neg hlen, if_neg hlen]
      exact foldlM_congr _ _ _ _
        (fun i hi s => by rw [h i (List.mem_range.mp hi)])
  · unfold applyOperationsNoParams
    rw [if_pos h]

/-- Witness for `applyOperations_length_check`: a one-operation batch
with an empty wire list is rejected. -/
theorem applyOperations_length_check_witness :
    applyOperationsParams (fun st _ _ _ _ _ => .ok st) [cone] 1
      ["PauliX"] [] [false] [[]]
      = .error "Invalid arguments: number of operations, wires, and parameters must all be equal" :=
  (applyOperations_length_check (fun st _ _ _ _ _ => .ok st) [cone] 1
    ["PauliX"] [] [false] [[]]).1 (Or.inl (by simp))

/-- Claim C6 counterexample: a single-wire matrix kernel is registered,
and the raw-pointer `applyMatrix` overload is handed a flattened
matrix holding 3 ≠ 4¹ entries.  A raw pointer carries no length, so no
size validation happens and the kernel runs — the claim's "both ways
of supplying the matrix" fails for the raw-array path. -/
theorem applyMatrix_ptr_counterexample :
    applyMatrixPtr sampleDispatcher .LM [cone, czero] 1
      [czero, czero, czero] [0] false = .ok [cone, czero] := rfl

/-- Claim C6 (amended): the container overload of `applyMatrix` throws
the size-mismatch error, before any amplitude is touched, exactly when
the matrix does not hold `4^k` entries for `k` wires; the raw-pointer
overload performs no size validation — with the arity-class kernel
registered it always runs the kernel, whatever the supplied length. -/
theorem applyMatrix_size_check (d : DynamicDispatcher) (kernel : KernelType)
    (data : List Cplx) (num_qubits : ℕ) (matrix : List Cplx)
    (wires : List ℕ) (inverse : Bool) :
    (applyMatrixVec d kernel data num_qubits matrix wires inverse
        = .error "The size of matrix does not match with the given number of wires"
      ↔ matrix.length ≠ exp2 (2 * wires.length))
      ∧ (∀ func, mapLookup d.matrices_ (matOpOf wires, kernel) = some func →
        applyMatrixPtr d kernel data num_qubits matrix wires inverse
          = .ok (func data num_qubits matrix wires inverse)) := by
  constructor
  · constructor
    · intro h
      by_contra hlen
      unfold applyMatrixVec at h
      rw [if_neg (fun hc => hc hlen)] at h
      unfold applyMatrixPtr at h
      cases hfind : mapLookup d.matrices_ (matOpOf wires, kernel) with
      | none =>
        rw [hfind] at h
        have hmsg := Except.error.inj h
        cases hop : matOpOf wires <;> rw [hop] at hmsg <;> simp [lookupMatrixName] at hmsg
      | some func =>
        rw [hfind] at h
        exact Except.noConfusion h
    · intro hlen
      unfold applyMatrixVec
      rw [if_pos hlen]
  · intro func hfind
    unfold applyMatrixPtr
    rw [hfind]

/-- Witness for `applyMatrix_size_check`: the container overload
rejects a 3-entry matrix on one wire. -/
theorem applyMatrix_size_check_witness :
    applyMatrixVec sampleDispatcher .LM [cone, czero] 1
      [czero, czero, czero] [0] false
      = .error "The size of matrix does not match with the given number of wires" :=
  ((applyMatrix_size_check sampleDispatcher .LM [cone, czero] 1
    [czero, czero, czero] [0] false).1).mpr (by norm_num [exp2])

/-! ### Claims C7, C9 -/

theorem setBasisState_length (data : List Cplx) (index : ℕ) :
    (setBasisState data index).length = data.length := by
  simp [setBasisState]

theorem setBasisState_getD (data : List Cplx) (index i : ℕ)
    (hi : i < data.length) :
    (setBasisState data index).getD i czero
      = if i = index then cone else czero := by
  unfold setBasisState
  have hi' : i < ((data.map (fun _ => czero)).set index cone).length := by
    simpa using hi
  rw [List.getD_eq_getElem _ _ hi']
  rw [List.getElem_set]
  rcases eq_or_ne i index with h | h
  · simp [h]
  · simp [h, Ne.symm h]

/-- Claim C7 counterexample: a one-amplitude buffer and the
out-of-range index 5.  `setBasisState` performs no range check — it
has no error path at all: the C++ body zero-fills the buffer and then
writes `data_[index]` unconditionally (undefined behaviour out of
range, a silent no-op in the list model).  The call completes normally
instead of reporting the precondition violation. -/
theorem setBasisState_oob_counterexample :
    setBasisState [cone] 5 = [czero] := rfl

/-- Claim C7 (amended): `setBasisState` never reports anything; for an
in-range index it zeroes the buffer and sets amplitude `(1,0)` at the
index, preserving the length, and an out-of-range index is undefined
behaviour (unchecked `operator[]` write), not a reported error. -/
theorem setBasisState_inrange (data : List Cplx) (index : ℕ)
    (hidx : index < data.length) :
    (setBasisState data index).length = data.length
      ∧ (setBasisState data index).getD index czero = cone := by
  refine ⟨setBasisState_length data index, ?_⟩
  rw [setBasisState_getD data index index hidx]
  simp

/-- Witness for `setBasisState_inrange` on a two-amplitude buffer. -/
theorem setBasisState_inrange_witness :
    (setBasisState [cone, cone] 1).length = 2 := by
  have h := (setBasisState_inrange [cone, cone] 1 (by norm_num)).1
  simpa using h

/-- Claim C9: constructing a managed state vector on `n ≥ 1` qubits
allocates `2^n` amplitudes, all zero, then `setBasisState(0)` leaves
amplitude `(1,0)` at index 0 and `(0,0)` everywhere else. -/
theorem svCreate_basis (n : ℕ) (_hn : 1 ≤ n) :
    (svCreate n).length = 2 ^ n
      ∧ (svCreate n).getD 0 czero = cone
      ∧ ∀ i, 0 < i → i < 2 ^ n → (svCreate n).getD i czero = czero := by
  have hlen : (List.replicate (exp2 n) czero).length = 2 ^ n := by
    simp [exp2]
  have hpos : 0 < 2 ^ n := Nat.pos_pow_of_pos n (by norm_num)
  refine ⟨?_, ?_, ?_⟩
  · rw [svCreate, setBasisState_length, hlen]
  · rw [svCreate, setBasisState_getD _ _ _ (by rw [hlen]; exact hpos)]
    simp
  · intro i hi0 hiub
    rw [svCreate, setBasisState_getD _ _ _ (by rw [hlen]; exact hiub)]
    rw [if_neg (by omega)]

/-- Witness for `svCreate_basis` at `n = 3`: a buffer of `2^3 = 8`
amplitudes. -/
theorem svCreate_basis_witness :
    (svCreate 3).length = 8 := by
  have h := (svCreate_basis 3 (by norm_num)).1
  simpa using h

end PennylaneLightning


